import Mathlib

/-!
Verification of the tabulous table-viewer core against its specification.

The development shallowly embeds the code of `src/tabulous`:

* `src/tabulous/widgets/mainwindow.py` (`_TableViewerBase`): the viewer,
  its `current_index` setter, `add_layer`, `open`, `save`, and the
  mirror-event handlers `_move_pytable` and `_pass_pytable`.
* `src/tabulous/_qt/_table/_table.py` (`QSpreadSheet`): the string-typed
  spreadsheet grid with its coerced-DataFrame cache.

The `TableList` collection itself (append/insert/move/rename/remove with
rename-collision resolution) is not under `src/`; only its callers and
tests are.  Those parts are modelled from the spec (sections 4.1-4.4) and
are marked `Modelled from the spec:` in their doc comments.

Machine conventions: pandas DataFrames are opaque payloads (`Nat` tokens)
at the viewer level; the spreadsheet grid is a list of rows of
`Option String` cells (`none` models NaN).  Python exceptions become
`Except` values; raising returns the entry state unchanged, which is
faithful because every modelled raise happens before any mutation.
-/

namespace Tabulous

/-! ### Decimal rendering of naturals

Models Python's `str(k)` used to build candidate names `f"{stem}-{i}"`.
Defined structurally on a fuel argument so that concrete instances reduce
in the kernel. -/

/-- Fuel-indexed decimal digit list of a natural number, most significant
digit first.  Correct whenever `n < fuel` is large enough to cover all
divisions by 10. -/
def decDigitsAux : Nat → Nat → List Char
  | 0, _ => []
  | fuel + 1, n =>
    if n < 10 then [Nat.digitChar n]
    else decDigitsAux fuel (n / 10) ++ [Nat.digitChar (n % 10)]

/-- Decimal digit list of a natural number (standard decimal, no leading
zeros, `0` rendered as `"0"`), as Python's `str` produces. -/
def decDigits (n : Nat) : List Char := decDigitsAux (n + 1) n

/-- Decimal string rendering of a natural number, models Python `str(k)`. -/
def natToDec (n : Nat) : String := String.mk (decDigits n)

theorem decDigitsAux_fuel_irrel :
    ∀ f1 : Nat, ∀ f2 n : Nat, n < f1 → n < f2 →
      decDigitsAux f1 n = decDigitsAux f2 n := by
  intro f1
  induction f1 with
  | zero => intro f2 n h1 _; omega
  | succ f ih =>
    intro f2 n h1 h2
    cases f2 with
    | zero => omega
    | succ g =>
      simp only [decDigitsAux]
      by_cases hn : n < 10
      · simp [hn]
      · simp only [hn, if_false]
        have hd : n / 10 < n := Nat.div_lt_self (by omega) (by omega)
        rw [ih g (n / 10) (by omega) (by omega)]

/-- Unfolding equation for `decDigits`, recursing on `n / 10`. -/
theorem decDigits_eq (n : Nat) :
    decDigits n =
      if n < 10 then [Nat.digitChar n]
      else decDigits (n / 10) ++ [Nat.digitChar (n % 10)] := by
  show decDigitsAux (n + 1) n = _
  simp only [decDigitsAux]
  by_cases hn : n < 10
  · simp [hn]
  · simp only [hn, if_false]
    have hd : n / 10 < n := Nat.div_lt_self (by omega) (by omega)
    rw [decDigitsAux_fuel_irrel n (n / 10 + 1) (n / 10) (by omega) (by omega)]
    rfl

theorem decDigits_ne_nil (n : Nat) : decDigits n ≠ [] := by
  rw [decDigits_eq]
  by_cases hn : n < 10 <;> simp [hn]

theorem digitChar_inj_fin :
    ∀ d e : Fin 10, Nat.digitChar d.val = Nat.digitChar e.val → d = e := by
  decide

theorem digitChar_inj {d e : Nat} (hd : d < 10) (he : e < 10)
    (h : Nat.digitChar d = Nat.digitChar e) : d = e := by
  have := digitChar_inj_fin ⟨d, hd⟩ ⟨e, he⟩ h
  exact congrArg Fin.val this

theorem decDigits_inj : ∀ m n : Nat, decDigits m = decDigits n → m = n := by
  intro m
  induction m using Nat.strong_induction_on with
  | _ m ih =>
    intro n h
    rw [decDigits_eq m, decDigits_eq n] at h
    by_cases hm : m < 10 <;> by_cases hn : n < 10
    · simp only [hm, hn, if_true, List.cons.injEq] at h
      exact digitChar_inj hm hn h.1
    · simp only [hm, hn, if_true, if_false] at h
      cases hd : decDigits (n / 10) with
      | nil => exact absurd hd (decDigits_ne_nil (n / 10))
      | cons a as =>
        rw [hd] at h
        have hlen := congrArg List.length h
        simp only [List.length_cons, List.length_append, List.length_nil] at hlen
        omega
    · simp only [hm, hn, if_true, if_false] at h
      cases hd : decDigits (m / 10) with
      | nil => exact absurd hd (decDigits_ne_nil (m / 10))
      | cons a as =>
        rw [hd] at h
        have hlen := congrArg List.length h
        simp only [List.length_cons, List.length_append, List.length_nil] at hlen
        omega
    · simp only [hm, hn, if_false] at h
      have hparts := List.append_inj' h (by rfl)
      have hdiv : m / 10 = n / 10 :=
        ih (m / 10) (Nat.div_lt_self (by omega) (by omega)) (n / 10) hparts.1
      have hmodchar : Nat.digitChar (m % 10) = Nat.digitChar (n % 10) := by
        have := hparts.2
        simpa using this
      have hmod : m % 10 = n % 10 :=
        digitChar_inj (Nat.mod_lt _ (by omega)) (Nat.mod_lt _ (by omega)) hmodchar
      omega

theorem natToDec_inj {m n : Nat} (h : natToDec m = natToDec n) : m = n := by
  have : decDigits m = decDigits n := congrArg String.data h
  exact decDigits_inj m n this

/-! ### Rename-collision resolution

Modelled from the spec, section 4.1: the `TableList` collection holding
this logic is not under `src/`; its behaviour is pinned by
`src/tests/test_main_window.py` (`test_add_layers`, `test_renaming`). -/

/-- Modelled from the spec: strip a trailing `-<digits>` suffix from a
proposed name if present, else use the full string as the stem
(spec section 4.1). -/
def stripStem (s : String) : String :=
  let rcs := s.data.reverse
  let ds := rcs.takeWhile Char.isDigit
  if ds.length ≠ 0 ∧ (rcs.drop ds.length).head? = some '-' then
    String.mk ((rcs.drop (ds.length + 1)).reverse)
  else s

/-- Candidate name number `k` for a stem: `<stem>-<k>` (spec section 4.1). -/
def candidate (stem : String) (k : Nat) : String :=
  stem ++ "-" ++ natToDec k

/-- Modelled from the spec: try candidates `<stem>-k`, `<stem>-(k+1)`, ...
in increasing numeric order and return the first one not currently in use
(spec section 4.1).  The fuel argument bounds the search; it is in fact
always sufficient at `ns.length + 1` (see `findFree_isSome`). -/
def findFree (ns : List String) (stem : String) : Nat → Nat → Option String
  | 0, _ => none
  | fuel + 1, k =>
    if candidate stem k ∈ ns then findFree ns stem fuel (k + 1)
    else some (candidate stem k)

/-- Modelled from the spec: resolve a proposed name against the names
currently in use.  A name used by no other table is accepted verbatim;
otherwise the first free candidate `<stem>-0`, `<stem>-1`, ... is accepted
(spec section 4.1). -/
def coerceName (ns : List String) (proposed : String) : String :=
  if proposed ∈ ns then
    match findFree ns (stripStem proposed) (ns.length + 1) 0 with
    | some nm => nm
    | none => proposed
  else proposed

theorem candidate_inj {stem : String} {j k : Nat}
    (h : candidate stem j = candidate stem k) : j = k := by
  have hd := congrArg String.data h
  simp only [candidate, String.data_append, List.append_assoc] at hd
  have h1 := List.append_cancel_left hd
  have h2 := List.append_cancel_left h1
  exact natToDec_inj (String.ext h2)

theorem candidate_injective (stem : String) :
    Function.Injective (candidate stem) := by
  intro a b h
  exact candidate_inj h

/-- Pigeonhole: among the first `ns.length + 1` candidates at least one is
not a member of `ns`. -/
theorem exists_free_candidate (ns : List String) (stem : String) :
    ∃ j, j ≤ ns.length ∧ candidate stem j ∉ ns := by
  by_contra hcon
  push_neg at hcon
  have hsub : (List.range (ns.length + 1)).map (candidate stem) ⊆ ns := by
    intro x hx
    simp only [List.mem_map, List.mem_range] at hx
    obtain ⟨j, hj, rfl⟩ := hx
    exact hcon j (by omega)
  have hnd : ((List.range (ns.length + 1)).map (candidate stem)).Nodup :=
    (List.nodup_range _).map (candidate_injective stem)
  have hle := (List.subperm_of_subset hnd hsub).length_le
  simp at hle

theorem findFree_isSome_of_exists (ns : List String) (stem : String) :
    ∀ fuel k : Nat, (∃ j, k ≤ j ∧ j < k + fuel ∧ candidate stem j ∉ ns) →
      (findFree ns stem fuel k).isSome := by
  intro fuel
  induction fuel with
  | zero =>
    intro k ⟨j, h1, h2, _⟩
    omega
  | succ f ih =>
    intro k ⟨j, h1, h2, h3⟩
    simp only [findFree]
    by_cases hk : candidate stem k ∈ ns
    · simp only [hk, if_true]
      refine ih (k + 1) ⟨j, ?_, by omega, h3⟩
      rcases Nat.eq_or_lt_of_le h1 with heq | hlt
      · exact absurd (heq ▸ hk) h3
      · omega
    · simp [hk]

/-- Characterization of a successful search: the result is the first free
candidate at or beyond the start index. -/
theorem findFree_spec (ns : List String) (stem : String) :
    ∀ fuel k nm, findFree ns stem fuel k = some nm →
      ∃ j, k ≤ j ∧ nm = candidate stem j ∧ candidate stem j ∉ ns ∧
        ∀ i, k ≤ i → i < j → candidate stem i ∈ ns := by
  intro fuel
  induction fuel with
  | zero => intro k nm h; simp [findFree] at h
  | succ f ih =>
    intro k nm h
    simp only [findFree] at h
    by_cases hk : candidate stem k ∈ ns
    · simp only [hk, if_true] at h
      obtain ⟨j, hj1, hj2, hj3, hj4⟩ := ih (k + 1) nm h
      refine ⟨j, by omega, hj2, hj3, ?_⟩
      intro i hi1 hi2
      rcases Nat.eq_or_lt_of_le hi1 with heq | hlt
      · exact heq ▸ hk
      · exact hj4 i hlt hi2
    · simp only [hk, if_false, Option.some.injEq] at h
      exact ⟨k, Nat.le_refl k, h.symm, hk, fun i hi1 hi2 => by omega⟩

/-- Accepted names are always fresh: the resolved name is never a member
of the name set it was resolved against. -/
theorem coerceName_fresh (ns : List String) (proposed : String) :
    coerceName ns proposed ∉ ns := by
  unfold coerceName
  by_cases hp : proposed ∈ ns
  · simp only [hp, if_true]
    obtain ⟨j, hj, hfree⟩ := exists_free_candidate ns (stripStem proposed)
    have hsome := findFree_isSome_of_exists ns (stripStem proposed)
      (ns.length + 1) 0 ⟨j, by omega, by omega, hfree⟩
    match hmatch : findFree ns (stripStem proposed) (ns.length + 1) 0 with
    | some nm =>
      obtain ⟨i, _, hnm, hni, _⟩ := findFree_spec ns (stripStem proposed) _ _ _ hmatch
      simpa [hnm] using hni
    | none => rw [hmatch] at hsome; simp at hsome
  · simp [hp]

theorem coerceName_of_not_mem {ns : List String} {proposed : String}
    (hp : proposed ∉ ns) : coerceName ns proposed = proposed := by
  simp [coerceName, hp]

/-- First-free-candidate characterization of collision resolution: when
the proposed name is taken, the accepted name is `<stem>-k` for the least
free `k`. -/
theorem coerceName_of_mem {ns : List String} {proposed : String}
    (hp : proposed ∈ ns) :
    ∃ k, coerceName ns proposed = candidate (stripStem proposed) k ∧
      candidate (stripStem proposed) k ∉ ns ∧
      ∀ j, j < k → candidate (stripStem proposed) j ∈ ns := by
  unfold coerceName
  simp only [hp, if_true]
  obtain ⟨j, hj, hfree⟩ := exists_free_candidate ns (stripStem proposed)
  have hsome := findFree_isSome_of_exists ns (stripStem proposed)
    (ns.length + 1) 0 ⟨j, by omega, by omega, hfree⟩
  match hmatch : findFree ns (stripStem proposed) (ns.length + 1) 0 with
  | some nm =>
    obtain ⟨i, _, hnm, hni, hall⟩ := findFree_spec ns (stripStem proposed) _ _ _ hmatch
    exact ⟨i, hnm, hni, fun m hm => hall m (by omega) hm⟩
  | none => rw [hmatch] at hsome; simp at hsome

/-! ### Tables and the ordered collection

Modelled from the spec, sections 3 and 4.2: the `TableList` class is not
under `src/`.  A table's `data` is an opaque payload token standing for
the wrapped DataFrame; it also serves as the table's identity across a
cross-collection transplant. -/

/-- Modelled from the spec: a named, mutable handle to a data grid
(spec section 3).  `data` is the opaque payload token. -/
structure Table where
  name : String
  data : Nat
deriving DecidableEq

/-- Modelled from the spec: an ordered sequence of tables, index order is
the display order (spec section 3). -/
abbrev Collection := List Table

/-- Name sequence of a collection, in display order. -/
def names (c : Collection) : List String := c.map Table.name

/-- Modelled from the spec: change notifications a collection mutation
emits for the mirror to apply (spec section 6). -/
inductive Event where
  | inserted (i : Nat)
  | removed (i : Nat) (t : Table)
  | moved (src dst : Nat)
  | renamed (i : Nat) (nm : String)
deriving DecidableEq

namespace TableList

/-- Modelled from the spec: `append(table)` resolves a name collision via
section 4.1 and inserts at the end (spec section 4.2). -/
def append (c : Collection) (t : Table) : Collection :=
  c ++ [{ t with name := coerceName (names c) t.name }]

/-- Modelled from the spec: `insert(index, table)` resolves collisions the
same way and shifts indices at or above `index` up by one; an index past
the end inserts at the end, as Python list insertion clamps
(spec section 4.2). -/
def insert (c : Collection) (i : Nat) (t : Table) : Collection :=
  let t' : Table := { t with name := coerceName (names c) t.name }
  c.take i ++ t' :: c.drop i

/-- Modelled from the spec: `remove(index)` deletes the table at the index
(spec section 4.2). -/
def remove (c : Collection) (i : Nat) : Collection := c.eraseIdx i

/-- Modelled from the spec: `move(src, dst)` removes the table at `src`
and re-inserts it at `dst` (spec section 4.2; the destination is used as
the insertion position of the post-removal list). -/
def move (c : Collection) (src dst : Nat) : Collection :=
  if h : src < c.length then
    let t := c.get ⟨src, h⟩
    let rest := c.eraseIdx src
    rest.take dst ++ t :: rest.drop dst
  else c

/-- Modelled from the spec: resolved name for renaming the table at index
`i`.  A proposed name used by no *other* table is accepted verbatim (so a
self-rename is a no-op); on a collision with another table the candidates
stem-0, stem-1, ... are tried against all names currently in use —
including the renamed table's own current name — until one is free
(spec section 4.1: accepted verbatim iff "not currently used by any
*other* table", candidates tried "until one is not currently in use";
pinned by `test_renaming`, where renaming the holder of "Data-1" to
"Data-2" while "Data-0" and "Data-2" are held by others yields
"Data-3"). -/
def coerceNameAt (c : Collection) (i : Nat) (proposed : String) : String :=
  if proposed ∈ (names c).eraseIdx i then
    match findFree (names c) (stripStem proposed) ((names c).length + 1) 0 with
    | some nm => nm
    | none => proposed
  else proposed

/-- Modelled from the spec: `rename(index, name)` applies section 4.1 at
the given index (spec section 4.2). -/
def rename (c : Collection) (i : Nat) (proposed : String) : Collection :=
  if h : i < c.length then
    c.set i { c.get ⟨i, h⟩ with name := coerceNameAt c i proposed }
  else c

/-- Modelled from the spec: `pop(index)` removes and returns the table at
the index, raising when out of range (spec section 4.2, `remove` with
ownership transfer to the caller). -/
def pop (c : Collection) (i : Nat) : Option (Table × Collection) :=
  match c.get? i with
  | some t => some (t, c.eraseIdx i)
  | none => none

end TableList

/-- Mutating operations of the collection (spec section 4.2). -/
inductive TableOp where
  | append (t : Table)
  | insert (i : Nat) (t : Table)
  | move (src dst : Nat)
  | rename (i : Nat) (proposed : String)
  | remove (i : Nat)

/-- Modelled from the spec: apply one operation, returning the mutated
collection together with the change notification it emits.  Notifications
are delivered synchronously after the mutation (spec sections 4.2 and 5),
so the returned collection is exactly the state a notification handler
observes; an out-of-range index raises instead, emitting nothing and
leaving the collection unchanged. -/
def applyOp (c : Collection) : TableOp → Collection × Option Event
  | TableOp.append t => (TableList.append c t, some (Event.inserted c.length))
  | TableOp.insert i t => (TableList.insert c i t, some (Event.inserted (min i c.length)))
  | TableOp.move s d =>
    if s < c.length then (TableList.move c s d, some (Event.moved s d)) else (c, none)
  | TableOp.rename i p =>
    if i < c.length then
      (TableList.rename c i p, some (Event.renamed i (TableList.coerceNameAt c i p)))
    else (c, none)
  | TableOp.remove i =>
    if h : i < c.length then
      (TableList.remove c i, some (Event.removed i (c.get ⟨i, h⟩)))
    else (c, none)

/-- Run a sequence of operations starting from the empty collection a
viewer is created with (spec section 3). -/
def runOps (ops : List TableOp) : Collection :=
  ops.foldl (fun c op => (applyOp c op).1) []

/-! ### Uniqueness-invariant preservation -/

theorem names_append (c : Collection) (t : Table) :
    names (TableList.append c t) = names c ++ [coerceName (names c) t.name] := by
  simp [TableList.append, names]

theorem nodup_names_append {c : Collection} (h : (names c).Nodup) (t : Table) :
    (names (TableList.append c t)).Nodup := by
  rw [names_append]
  have hperm : List.Perm (names c ++ [coerceName (names c) t.name])
      (coerceName (names c) t.name :: names c) := List.perm_append_singleton _ _
  exact hperm.symm.nodup (List.nodup_cons.mpr ⟨coerceName_fresh _ _, h⟩)

theorem names_insert (c : Collection) (i : Nat) (t : Table) :
    names (TableList.insert c i t) =
      (names c).take i ++ coerceName (names c) t.name :: (names c).drop i := by
  simp [TableList.insert, names, List.map_take, List.map_drop]

theorem nodup_names_insert {c : Collection} (h : (names c).Nodup) (i : Nat) (t : Table) :
    (names (TableList.insert c i t)).Nodup := by
  rw [names_insert]
  have hperm : List.Perm
      ((names c).take i ++ coerceName (names c) t.name :: (names c).drop i)
      (coerceName (names c) t.name :: ((names c).take i ++ (names c).drop i)) :=
    List.perm_middle
  rw [List.take_append_drop] at hperm
  exact hperm.symm.nodup (List.nodup_cons.mpr ⟨coerceName_fresh _ _, h⟩)

theorem perm_get_cons_eraseIdx :
    ∀ (l : List Table) (i : Nat) (h : i < l.length),
      List.Perm l (l.get ⟨i, h⟩ :: l.eraseIdx i) := by
  intro l
  induction l with
  | nil => intro i h; simp at h
  | cons x xs ih =>
    intro i h
    cases i with
    | zero => simp
    | succ n =>
      have hn : n < xs.length := by simpa using h
      have h1 : List.Perm (x :: xs) (x :: (xs.get ⟨n, hn⟩ :: xs.eraseIdx n)) :=
        (ih n hn).cons x
      have h2 : List.Perm (x :: (xs.get ⟨n, hn⟩ :: xs.eraseIdx n))
          (xs.get ⟨n, hn⟩ :: x :: xs.eraseIdx n) := List.Perm.swap _ _ _
      have h3 : ((x :: xs).get ⟨n + 1, h⟩ : Table) = xs.get ⟨n, hn⟩ := by simp
      have h4 : (x :: xs).eraseIdx (n + 1) = x :: xs.eraseIdx n := by simp
      rw [h3, h4]
      exact h1.trans h2

theorem nodup_names_move {c : Collection} (h : (names c).Nodup) (src dst : Nat) :
    (names (TableList.move c src dst)).Nodup := by
  unfold TableList.move
  by_cases hs : src < c.length
  · simp only [hs, dif_pos]
    set t := c.get ⟨src, hs⟩ with ht
    set rest := c.eraseIdx src with hrest
    have h1 : List.Perm (rest.take dst ++ t :: rest.drop dst)
        (t :: (rest.take dst ++ rest.drop dst)) := List.perm_middle
    rw [List.take_append_drop] at h1
    have h2 : List.Perm c (t :: rest) := perm_get_cons_eraseIdx c src hs
    have hperm : List.Perm (rest.take dst ++ t :: rest.drop dst) c := h1.trans h2.symm
    have hn := (hperm.map Table.name).symm.nodup h
    show (List.map Table.name (rest.take dst ++ t :: rest.drop dst)).Nodup
    exact hn
  · simpa [hs] using h

theorem nodup_names_remove {c : Collection} (h : (names c).Nodup) (i : Nat) :
    (names (TableList.remove c i)).Nodup := by
  have hsub : List.Sublist (TableList.remove c i) c := List.eraseIdx_sublist c i
  exact (hsub.map Table.name).nodup h

theorem names_set (c : Collection) (i : Nat) (t : Table) :
    names (c.set i t) = (names c).set i t.name := by
  simp [names, List.map_set]

theorem nodup_set_of_not_mem_eraseIdx :
    ∀ (l : List String) (i : Nat) (a : String),
      l.Nodup → a ∉ l.eraseIdx i → (l.set i a).Nodup := by
  intro l
  induction l with
  | nil => intro i a _ _; simp
  | cons x xs ih =>
    intro i a hnd ha
    cases i with
    | zero =>
      simp only [List.eraseIdx_cons_zero] at ha
      simp only [List.set_cons_zero]
      exact List.nodup_cons.mpr ⟨ha, hnd.of_cons⟩
    | succ n =>
      simp only [List.eraseIdx_cons_succ, List.mem_cons] at ha
      push_neg at ha
      simp only [List.set_cons_succ]
      rw [List.nodup_cons] at hnd ⊢
      refine ⟨?_, ih n a hnd.2 ha.2⟩
      intro hmem
      rcases List.mem_or_eq_of_mem_set hmem with hx | hx
      · exact hnd.1 hx
      · exact ha.1 hx.symm

/-- First-free-candidate characterization of the rename resolution: when
the proposal collides with another table's name, the accepted name is
stem-k for the least k whose candidate is not currently in use by any
table. -/
theorem coerceNameAt_of_mem {c : Collection} {i : Nat} {proposed : String}
    (hp : proposed ∈ (names c).eraseIdx i) :
    ∃ k, TableList.coerceNameAt c i proposed = candidate (stripStem proposed) k ∧
      candidate (stripStem proposed) k ∉ names c ∧
      ∀ j, j < k → candidate (stripStem proposed) j ∈ names c := by
  unfold TableList.coerceNameAt
  simp only [hp, if_true]
  obtain ⟨j, hj, hfree⟩ := exists_free_candidate (names c) (stripStem proposed)
  have hsome := findFree_isSome_of_exists (names c) (stripStem proposed)
    ((names c).length + 1) 0 ⟨j, by omega, by omega, hfree⟩
  match hmatch : findFree (names c) (stripStem proposed) ((names c).length + 1) 0 with
  | some nm =>
    obtain ⟨k, _, hnm, hni, hall⟩ :=
      findFree_spec (names c) (stripStem proposed) _ _ _ hmatch
    exact ⟨k, hnm, hni, fun m hm => hall m (by omega) hm⟩
  | none => rw [hmatch] at hsome; simp at hsome

/-- The name a rename accepts is never held by another table. -/
theorem coerceNameAt_fresh (c : Collection) (i : Nat) (proposed : String) :
    TableList.coerceNameAt c i proposed ∉ (names c).eraseIdx i := by
  by_cases hp : proposed ∈ (names c).eraseIdx i
  · obtain ⟨k, heq, hni, _⟩ := coerceNameAt_of_mem hp
    rw [heq]
    intro hmem
    exact hni ((List.eraseIdx_sublist (names c) i).subset hmem)
  · unfold TableList.coerceNameAt
    rw [if_neg hp]
    exact hp

theorem nodup_names_rename {c : Collection} (h : (names c).Nodup)
    (i : Nat) (proposed : String) :
    (names (TableList.rename c i proposed)).Nodup := by
  unfold TableList.rename
  by_cases hi : i < c.length
  · simp only [hi, dif_pos]
    rw [names_set]
    exact nodup_set_of_not_mem_eraseIdx (names c) i _ h (coerceNameAt_fresh c i proposed)
  · simpa [hi] using h

theorem applyOp_preserves_nodup {c : Collection} (h : (names c).Nodup) (op : TableOp) :
    (names (applyOp c op).1).Nodup := by
  cases op with
  | append t => exact nodup_names_append h t
  | insert i t => exact nodup_names_insert h i t
  | move s d =>
    simp only [applyOp]
    by_cases hs : s < c.length
    · simpa [hs] using nodup_names_move h s d
    · simpa [hs] using h
  | rename i p =>
    simp only [applyOp]
    by_cases hi : i < c.length
    · simpa [hi] using nodup_names_rename h i p
    · simpa [hi] using h
  | remove i =>
    simp only [applyOp]
    by_cases hi : i < c.length
    · simpa [hi] using nodup_names_remove h i
    · simpa [hi] using h

theorem foldl_preserves_nodup (ops : List TableOp) :
    ∀ c : Collection, (names c).Nodup →
      (names (ops.foldl (fun c op => (applyOp c op).1) c)).Nodup := by
  induction ops with
  | nil => intro c h; simpa using h
  | cons op rest ih =>
    intro c h
    simpa using ih _ (applyOp_preserves_nodup h op)

/-- C1: for every sequence of append, insert, move, rename and remove
operations starting from the empty collection a viewer is created with,
all table names are pairwise distinct after each operation returns.
`applyOp` pairs the mutated collection with the notification the
operation emits, and notifications are delivered synchronously after the
mutation, so the first component is exactly the state any notification
subscriber observes: the uniqueness invariant already holds there. -/
theorem C1_names_nodup_after_every_op :
    (∀ ops : List TableOp, (names (runOps ops)).Nodup) ∧
    (∀ (c : Collection) (op : TableOp), (names c).Nodup →
      (names (applyOp c op).1).Nodup) := by
  constructor
  · intro ops
    exact foldl_preserves_nodup ops [] (by simp [names])
  · intro c op h
    exact applyOp_preserves_nodup h op

/-- C1 witness: a concrete single step from a nodup collection. -/
theorem C1_names_nodup_after_every_op_witness :
    (names (applyOp [⟨"Data", 0⟩] (TableOp.append ⟨"Data", 1⟩)).1).Nodup :=
  C1_names_nodup_after_every_op.2 [⟨"Data", 0⟩] (TableOp.append ⟨"Data", 1⟩)
    (by decide)

/-- C2 counterexample: starting from the empty collection, appending
tables proposed as "Data", "Data", "Data-0" does not yield the names
"Data", "Data-0", "Data-2" claimed: after the first two appends the names
in use are "Data" and "Data-0", so the candidate scan for the third
proposal (stem "Data") finds "Data-1" free already at the second
candidate and never reaches "Data-2". -/
theorem C2_third_append_not_Data2 :
    names (runOps [TableOp.append ⟨"Data", 0⟩, TableOp.append ⟨"Data", 1⟩,
      TableOp.append ⟨"Data-0", 2⟩]) ≠ ["Data", "Data-0", "Data-2"] := by
  decide

/-- C2 amended: starting from the empty collection, appending tables
proposed as "Data", then "Data", then "Data-0" yields the accepted names
"Data", "Data-0" and "Data-1" in that order. -/
theorem C2_append_sequence_names :
    names (runOps [TableOp.append ⟨"Data", 0⟩, TableOp.append ⟨"Data", 1⟩,
      TableOp.append ⟨"Data-0", 2⟩]) = ["Data", "Data-0", "Data-1"] := by
  decide

/-- C3: renaming the table at index `i` to a proposed name already used by
a different table strips a trailing dash-digits suffix from the proposal
to obtain the stem and accepts the first candidate stem-0, stem-1,
stem-2, ... (tried in increasing numeric order) that is not currently in
use by any table; the resolution is total and never raises for a
collision.  Concretely, renaming a table to "Data-2" while "Data-0",
"Data-1" and "Data-2" are all held by other tables yields "Data-3"; the
same holds in the pinned `test_renaming` scenario where the renamed
table itself holds "Data-1" and only "Data-0" and "Data-2" are held by
others. -/
theorem C3_rename_first_free_candidate :
    (∀ (c : Collection) (i : Nat) (proposed : String),
      proposed ∈ (names c).eraseIdx i →
      ∃ k, TableList.coerceNameAt c i proposed = candidate (stripStem proposed) k ∧
        candidate (stripStem proposed) k ∉ names c ∧
        ∀ j, j < k → candidate (stripStem proposed) j ∈ names c) ∧
    TableList.coerceNameAt
      [⟨"Data-0", 0⟩, ⟨"Data-1", 1⟩, ⟨"Data-2", 2⟩, ⟨"X", 3⟩] 3 "Data-2"
      = "Data-3" ∧
    TableList.coerceNameAt
      [⟨"Data-0", 0⟩, ⟨"Data-1", 1⟩, ⟨"Data-2", 2⟩] 1 "Data-2" = "Data-3" := by
  refine ⟨?_, ?_, ?_⟩
  · intro c i proposed hp
    exact coerceNameAt_of_mem hp
  · decide
  · decide

/-- C3 witness: renaming index 0 of a two-table collection to the other
table's name "Data-0" resolves through the candidate scan. -/
theorem C3_rename_first_free_candidate_witness :
    ∃ k, TableList.coerceNameAt [⟨"A", 0⟩, ⟨"Data-0", 1⟩] 0 "Data-0"
        = candidate (stripStem "Data-0") k ∧
      candidate (stripStem "Data-0") k ∉ names [⟨"A", 0⟩, ⟨"Data-0", 1⟩] ∧
      ∀ j, j < k → candidate (stripStem "Data-0") j ∈
        names [⟨"A", 0⟩, ⟨"Data-0", 1⟩] :=
  C3_rename_first_free_candidate.1 [⟨"A", 0⟩, ⟨"Data-0", 1⟩] 0 "Data-0" (by decide)

/-! ### The viewer (`src/tabulous/widgets/mainwindow.py`, `_TableViewerBase`) -/

/-- Errors surfaced to the user by viewer operations.  `unsupportedFormat`
embeds the `ValueError("Extension {suf} not supported.")` raised by
`open`/`save`; `indexOutOfRange` is the error for a current index still
out of range after negative-index resolution (spec section 7);
`indexError` is a Python IndexError from list indexing. -/
inductive ViewerError where
  | indexOutOfRange
  | indexError
  | unsupportedFormat (suffix : String)
deriving DecidableEq

/-- Viewer state: the python-side table collection and the Qt tab stack's
current index, which is -1 when no tabs exist. -/
structure Viewer where
  tables : Collection
  currentIndex : Int
deriving DecidableEq

/-- Modelled from the spec: the Qt tab stack's `setCurrentIndex` is not
under `src/`; per spec sections 4.3 and 7 an index out of range after
resolution is an error, otherwise the index becomes current. -/
def setCurrentIndexQt (v : Viewer) (i : Int) : Except ViewerError Viewer :=
  if 0 ≤ i ∧ i < (v.tables.length : Int) then
    Except.ok { v with currentIndex := i }
  else Except.error ViewerError.indexOutOfRange

/-- The `current_index` setter (mainwindow.py lines 105-111, integer
branch): a negative index is first resolved by adding `len(self.tables)`,
then the result is delegated to the Qt tab stack. -/
def setCurrentIndex (v : Viewer) (i : Int) : Except ViewerError Viewer :=
  if i < 0 then setCurrentIndexQt v (i + (v.tables.length : Int))
  else setCurrentIndexQt v i

/-- `add_layer` (mainwindow.py lines 206-209): append the layer to the
table list, then activate the last table by assigning `current_index = -1`.
The assignment cannot fail because the collection is nonempty right after
the append, so the error arm is unreachable. -/
def addLayer (v : Viewer) (t : Table) : Viewer :=
  match setCurrentIndex { v with tables := TableList.append v.tables t } (-1) with
  | Except.ok v2 => v2
  | Except.error _ => { v with tables := TableList.append v.tables t }

/-- `add_table` (mainwindow.py lines 133-164): wrap the data in a table
view (copying the data does not change the payload token) and delegate to
`add_layer`. -/
def addTable (v : Viewer) (data : Nat) (nm : String) : Viewer :=
  addLayer v ⟨nm, data⟩

/-- The csv-family suffixes of `open` and `save` (mainwindow.py lines 232
and 247). -/
def csvSuffixes : List String := [".csv", ".txt", ".dat"]

/-- Excel-family suffixes accepted by `open` (mainwindow.py line 235; the
entry "xltx" lacks its dot in the source and is kept as written there). -/
def excelOpenSuffixes : List String :=
  [".xlsx", ".xls", ".xlsb", ".xlsm", ".xltm", "xltx", ".xml"]

/-- Excel-family suffixes accepted by `save` (mainwindow.py line 249; the
entry "xml" lacks its dot in the source and is kept as written there). -/
def excelSaveSuffixes : List String := [".xlsx", ".xls", "xml"]

/-- A path passed to `open`: its suffix and stem together with what the
pandas readers would produce for it — `read_csv` one frame, `read_excel`
a dict of one frame per sheet (payload tokens). -/
structure OpenPath where
  suffix : String
  stem : String
  csvContent : Nat
  sheets : List (String × Nat)

/-- `open` (mainwindow.py lines 211-240) for the default table type:
dispatch on the suffix, reading a csv-family file into one table named by
the path stem and an excel-family file into one table per sheet; any
other suffix raises `ValueError("Extension {suf} not supported.")` before
any state is touched.  The viewer is returned alongside the outcome. -/
def openFile (v : Viewer) (p : OpenPath) : Viewer × Except ViewerError Unit :=
  if p.suffix ∈ csvSuffixes then
    (addTable v p.csvContent p.stem, Except.ok ())
  else if p.suffix ∈ excelOpenSuffixes then
    (p.sheets.foldl (fun w s => addTable w s.2 s.1) v, Except.ok ())
  else
    (v, Except.error (ViewerError.unsupportedFormat p.suffix))

/-- Modelled from the spec: Python list indexing with negative-index
resolution, raising IndexError when out of range (`TableList.__getitem__`
inherits list semantics; not under `src/`). -/
def pyGet (c : Collection) (i : Int) : Except ViewerError Table :=
  let j : Int := if i < 0 then i + (c.length : Int) else i
  if 0 ≤ j ∧ j < (c.length : Int) then
    match c.get? j.toNat with
    | some t => Except.ok t
    | none => Except.error ViewerError.indexError
  else Except.error ViewerError.indexError

/-- `current_table` (mainwindow.py lines 95-98):
`self.tables[self.current_index]` at the Qt current index. -/
def currentTable (v : Viewer) : Except ViewerError Table :=
  pyGet v.tables v.currentIndex

/-- `save` (mainwindow.py lines 242-252): read `self.current_table.data`
first, then dispatch on the suffix; writing the file does not change
viewer state; an unsupported suffix raises
`ValueError("Extension {suf} not supported.")`.  The viewer is returned
alongside the outcome. -/
def save (v : Viewer) (suffix : String) : Viewer × Except ViewerError Unit :=
  match currentTable v with
  | Except.error e => (v, Except.error e)
  | Except.ok _df =>
    if suffix ∈ csvSuffixes then (v, Except.ok ())
    else if suffix ∈ excelSaveSuffixes then (v, Except.ok ())
    else (v, Except.error (ViewerError.unsupportedFormat suffix))

/-- `_move_pytable` (mainwindow.py lines 282-288), the handler of the
mirror's `itemMoved(src, dst)`: with the python-side events blocked (echo
suppression), if `dst > src` then increment `dst` by one, then delegate to
the collection's move. -/
def movePytable (v : Viewer) (src dst : Nat) : Viewer :=
  let dst2 := if dst > src then dst + 1 else dst
  { v with tables := TableList.move v.tables src dst2 }

/-- `_pass_pytable` (mainwindow.py lines 299-303), the handler of a
cross-viewer drag: `dst.tables.append(src.tables.pop(index))` — pop from
the source collection first, then append (with collision resolution
against the destination's names) to the destination.  `none` models the
IndexError of popping an invalid index. -/
def passPytable (A B : Viewer) (i : Nat) : Option (Viewer × Viewer) :=
  match TableList.pop A.tables i with
  | some (t, rest) =>
    some ({ A with tables := rest },
          { B with tables := TableList.append B.tables t })
  | none => none

/-- Intermediate state of `_pass_pytable` as observed by the source
collection's removal-notification subscribers: `pop` emits its removed
event synchronously (spec section 5) before the append to the destination
runs, and `_pass_pytable` installs no suppression, transaction or
rollback around the two steps. -/
def passPytableMid (A B : Viewer) (i : Nat) : Option (Viewer × Viewer) :=
  match TableList.pop A.tables i with
  | some (_, rest) => some ({ A with tables := rest }, B)
  | none => none

/-- Whether the collection holds the table with this payload identity. -/
def holdsData (c : Collection) (d : Nat) : Bool :=
  c.any (fun t => t.data == d)

/-! ### Viewer lemmas and claim theorems -/

theorem length_append_table (c : Collection) (t : Table) :
    (TableList.append c t).length = c.length + 1 := by
  simp [TableList.append]

theorem setCurrentIndex_neg_one (v : Viewer) (h : v.tables.length ≠ 0) :
    setCurrentIndex v (-1) =
      Except.ok { v with currentIndex := (v.tables.length : Int) - 1 } := by
  unfold setCurrentIndex setCurrentIndexQt
  rw [if_pos (by norm_num)]
  rw [if_pos (by constructor <;> omega)]
  have heq : (-1 : Int) + (v.tables.length : Int) = (v.tables.length : Int) - 1 := by
    omega
  rw [heq]

theorem addLayer_eq (v : Viewer) (t : Table) :
    addLayer v t = Viewer.mk (TableList.append v.tables t)
      (((TableList.append v.tables t).length : Int) - 1) := by
  unfold addLayer
  rw [setCurrentIndex_neg_one { v with tables := TableList.append v.tables t }
    (by simp [length_append_table])]

/-- C7: after every `add_layer` (the shared tail of `add_table`,
`add_spreadsheet` and the other add methods) the viewer's current index
equals `len(tables) - 1`: the newly appended table becomes the active
one, and the collection grew by exactly one. -/
theorem C7_add_layer_activates_last :
    ∀ (v : Viewer) (t : Table),
      (addLayer v t).currentIndex = ((addLayer v t).tables.length : Int) - 1 ∧
      (addLayer v t).tables.length = v.tables.length + 1 := by
  intro v t
  rw [addLayer_eq]
  exact ⟨rfl, length_append_table v.tables t⟩

/-- C8: an integer index below zero given to the current-index setter is
resolved to `len(collection) + i` before use, and an index that is still
out of range after this resolution is an error. -/
theorem C8_negative_index_resolution :
    ∀ (v : Viewer) (i : Int), i < 0 →
      setCurrentIndex v i = setCurrentIndexQt v ((v.tables.length : Int) + i) ∧
      ((v.tables.length : Int) + i < 0 ∨
          (v.tables.length : Int) ≤ (v.tables.length : Int) + i →
        setCurrentIndex v i = Except.error ViewerError.indexOutOfRange) := by
  intro v i hi
  constructor
  · unfold setCurrentIndex
    rw [if_pos hi]
    have heq : i + (v.tables.length : Int) = (v.tables.length : Int) + i := by omega
    rw [heq]
  · intro hout
    unfold setCurrentIndex setCurrentIndexQt
    rw [if_pos hi, if_neg (by omega)]

/-- C8 witness: resolving -5 against a one-table collection lands at -4,
still out of range, hence the error. -/
theorem C8_negative_index_resolution_witness :
    setCurrentIndex (Viewer.mk [⟨"Data", 0⟩] 0) (-5)
        = setCurrentIndexQt (Viewer.mk [⟨"Data", 0⟩] 0)
            (((Viewer.mk [⟨"Data", 0⟩] 0).tables.length : Int) + (-5)) ∧
    setCurrentIndex (Viewer.mk [⟨"Data", 0⟩] 0) (-5)
        = Except.error ViewerError.indexOutOfRange :=
  ⟨(C8_negative_index_resolution (Viewer.mk [⟨"Data", 0⟩] 0) (-5) (by decide)).1,
   (C8_negative_index_resolution (Viewer.mk [⟨"Data", 0⟩] 0) (-5) (by decide)).2
     (by decide)⟩

/-- C4: the mirror-initiated move handler increments the destination by
one before delegating to the python-side move exactly when the drop
target is downstream of the source (`dst > src`), and delegates both
indices unchanged when `dst <= src`. -/
theorem C4_mirror_move_compensation :
    ∀ (v : Viewer) (src dst : Nat),
      (src < dst → movePytable v src dst
          = { v with tables := TableList.move v.tables src (dst + 1) }) ∧
      (dst ≤ src → movePytable v src dst
          = { v with tables := TableList.move v.tables src dst }) := by
  intro v src dst
  constructor
  · intro h
    simp [movePytable, h]
  · intro h
    simp [movePytable, Nat.not_lt.mpr h]

/-- C4 witness: one downstream move (incremented) and one upstream move
(unchanged) on a three-table viewer. -/
theorem C4_mirror_move_compensation_witness :
    movePytable (Viewer.mk [⟨"A", 0⟩, ⟨"B", 1⟩, ⟨"C", 2⟩] 0) 0 1
        = { Viewer.mk [⟨"A", 0⟩, ⟨"B", 1⟩, ⟨"C", 2⟩] 0 with
            tables := TableList.move [⟨"A", 0⟩, ⟨"B", 1⟩, ⟨"C", 2⟩] 0 2 } ∧
    movePytable (Viewer.mk [⟨"A", 0⟩, ⟨"B", 1⟩, ⟨"C", 2⟩] 0) 2 1
        = { Viewer.mk [⟨"A", 0⟩, ⟨"B", 1⟩, ⟨"C", 2⟩] 0 with
            tables := TableList.move [⟨"A", 0⟩, ⟨"B", 1⟩, ⟨"C", 2⟩] 2 1 } :=
  ⟨(C4_mirror_move_compensation (Viewer.mk [⟨"A", 0⟩, ⟨"B", 1⟩, ⟨"C", 2⟩] 0) 0 1).1
      (by decide),
   (C4_mirror_move_compensation (Viewer.mk [⟨"A", 0⟩, ⟨"B", 1⟩, ⟨"C", 2⟩] 0) 2 1).2
      (by decide)⟩

/-- C6 counterexample: saving to an unsupported extension on a freshly
created (empty) viewer raises the IndexError of reading
`self.current_table.data` (mainwindow.py line 246, before the suffix
check), not the unsupported-format error: with no tables the Qt current
index is -1 and `tables[-1]` fails. -/
theorem C6_save_empty_viewer_not_format_error :
    (save (Viewer.mk [] (-1)) ".json").2 = Except.error ViewerError.indexError ∧
    ViewerError.indexError ≠ ViewerError.unsupportedFormat ".json" :=
  ⟨rfl, by decide⟩

/-- C6 amended: for every path whose extension is outside the supported
set, `open` raises the unsupported-format error and leaves the viewer
unchanged, and `save` leaves the viewer unchanged and aborts with a
user-visible error — the unsupported-format error whenever the viewer has
a current table, while with no current table the prior
`current_table` read raises an index error instead. -/
theorem C6_unsupported_extension_aborts :
    ∀ (v : Viewer) (p : OpenPath) (suffix : String),
      (p.suffix ∉ csvSuffixes → p.suffix ∉ excelOpenSuffixes →
        openFile v p = (v, Except.error (ViewerError.unsupportedFormat p.suffix))) ∧
      (suffix ∉ csvSuffixes → suffix ∉ excelSaveSuffixes →
        (save v suffix).1 = v ∧
        (∃ e, (save v suffix).2 = Except.error e) ∧
        (∀ t, currentTable v = Except.ok t →
          (save v suffix).2 = Except.error (ViewerError.unsupportedFormat suffix))) := by
  intro v p suffix
  constructor
  · intro h1 h2
    unfold openFile
    rw [if_neg h1, if_neg h2]
  · intro h1 h2
    cases hct : currentTable v with
    | error e =>
      refine ⟨by simp [save, hct], ⟨e, by simp [save, hct]⟩, ?_⟩
      intro t ht
      exact absurd ht (by simp)
    | ok t0 =>
      refine ⟨by simp [save, hct, h1, h2], ⟨ViewerError.unsupportedFormat suffix,
        by simp [save, hct, h1, h2]⟩, ?_⟩
      intro t ht
      simp [save, hct, h1, h2]

/-- C6 witness: opening and saving a ".json" path on a one-table viewer
aborts with the unsupported-format error and changes nothing. -/
theorem C6_unsupported_extension_aborts_witness :
    openFile (Viewer.mk [⟨"Data", 7⟩] 0) ⟨".json", "x", 5, []⟩
        = (Viewer.mk [⟨"Data", 7⟩] 0,
           Except.error (ViewerError.unsupportedFormat ".json")) ∧
    (save (Viewer.mk [⟨"Data", 7⟩] 0) ".json").1 = Viewer.mk [⟨"Data", 7⟩] 0 ∧
    (save (Viewer.mk [⟨"Data", 7⟩] 0) ".json").2
        = Except.error (ViewerError.unsupportedFormat ".json") :=
  ⟨(C6_unsupported_extension_aborts (Viewer.mk [⟨"Data", 7⟩] 0) ⟨".json", "x", 5, []⟩
      ".json").1 (by decide) (by decide),
   ((C6_unsupported_extension_aborts (Viewer.mk [⟨"Data", 7⟩] 0) ⟨".json", "x", 5, []⟩
      ".json").2 (by decide) (by decide)).1,
   ((C6_unsupported_extension_aborts (Viewer.mk [⟨"Data", 7⟩] 0) ⟨".json", "x", 5, []⟩
      ".json").2 (by decide) (by decide)).2.2 ⟨"Data", 7⟩ rfl⟩

theorem pop_some {c : Collection} {i : Nat} {t : Table} {rest : Collection}
    (h : TableList.pop c i = some (t, rest)) :
    c.get? i = some t ∧ rest = c.eraseIdx i := by
  unfold TableList.pop at h
  match hg : c.get? i with
  | some u =>
    rw [hg] at h
    simp only [Option.some.injEq, Prod.mk.injEq] at h
    exact ⟨by rw [h.1], h.2.symm⟩
  | none => rw [hg] at h; simp at h

theorem holdsData_append (c : Collection) (t : Table) :
    holdsData (TableList.append c t) t.data = true := by
  simp [holdsData, TableList.append]

/-- C5 counterexample: during a cross-collection transplant the source
collection's removal notification fires between the pop and the append,
at a state where the dragged table (payload 7) is held by neither
collection — an observer running in that notification sees it absent from
both viewers.  There is no transaction or rollback around the two
steps. -/
theorem C5_transplant_mid_absent_from_both :
    (passPytableMid (Viewer.mk [⟨"t", 7⟩] 0) (Viewer.mk [] (-1)) 0).map
      (fun s => holdsData s.1.tables 7 || holdsData s.2.tables 7) = some false := by
  decide

/-- C5 amended: a cross-collection transplant removes the table from the
source collection and appends it to the destination with
destination-side collision resolution, and after completion the table is
absent from the source, present in the destination, and the
destination's name-uniqueness invariant holds; however the two steps are
not atomic with respect to observers — the removal notification is
observed at an intermediate state where the table is in neither
collection (see the counterexample) — and no rollback exists. -/
theorem C5_transplant_final_state :
    ∀ (A B : Viewer) (i : Nat) (t : Table) (rest : Collection),
      TableList.pop A.tables i = some (t, rest) →
      (names B.tables).Nodup →
      ∃ A2 B2, passPytable A B i = some (A2, B2) ∧
        A2.tables = A.tables.eraseIdx i ∧
        holdsData B2.tables t.data = true ∧
        (names B2.tables).Nodup := by
  intro A B i t rest hpop hnd
  obtain ⟨hget, hrest⟩ := pop_some hpop
  refine ⟨{ A with tables := rest },
    { B with tables := TableList.append B.tables t }, ?_, ?_, ?_, ?_⟩
  · unfold passPytable
    rw [hpop]
  · exact hrest
  · exact holdsData_append B.tables t
  · exact nodup_names_append hnd t

/-- C5 witness: transplanting the only table of one viewer into a viewer
already holding a table of the same name. -/
theorem C5_transplant_final_state_witness :
    ∃ A2 B2, passPytable (Viewer.mk [⟨"t", 7⟩] 0) (Viewer.mk [⟨"t", 9⟩] 0) 0
        = some (A2, B2) ∧
      A2.tables = ([⟨"t", 7⟩] : Collection).eraseIdx 0 ∧
      holdsData B2.tables (Table.mk "t" 7).data = true ∧
      (names B2.tables).Nodup :=
  C5_transplant_final_state (Viewer.mk [⟨"t", 7⟩] 0) (Viewer.mk [⟨"t", 9⟩] 0) 0
    ⟨"t", 7⟩ [] rfl (by decide)

/-! ### The spreadsheet grid (`src/tabulous/_qt/_table/_table.py`, `QSpreadSheet`)

The raw data of a `QSpreadSheet` is a string-typed pandas DataFrame; it
is embedded as a list of rows of optional strings (`none` models NaN).
The CSV-round-trip dtype coercion performed by `getDataFrame`
(`pd.read_csv(StringIO(raw.to_string()))`) is external pandas behaviour,
so the operations are parameterized over an arbitrary coercion function
`coerce`; the claims about the cache hold for every such function. -/

/-- One spreadsheet cell; `none` models NaN. -/
abbrev Cell := Option String

/-- A string-typed grid: the rows of the raw DataFrame. -/
structure RawDF where
  cells : List (List Cell)
deriving DecidableEq

/-- Row count of the grid (`shape[0]`). -/
def RawDF.nrows (d : RawDF) : Nat := d.cells.length

/-- Column count of the grid (`shape[1]`; 0 when there are no rows). -/
def RawDF.ncols (d : RawDF) : Nat := (d.cells.head?.map List.length).getD 0

/-- Element count of the grid (`DataFrame.size`). -/
def RawDF.size (d : RawDF) : Nat := d.nrows * d.ncols

/-- State of a `QSpreadSheet`: the raw string-typed grid, the cached
type-coerced DataFrame (`_data_cache`), the shape the Qt model was last
told (`model().setShape`), the filter (`_filter_slice`) and the header
labels written by the base-class header setters. -/
structure SpreadSheet where
  dataRaw : RawDF
  dataCache : Option RawDF
  modelRows : Nat
  modelCols : Nat
  filterSlice : Option Nat
  vHeaders : List (Nat × String)
  hHeaders : List (Nat × String)
deriving DecidableEq

/-- A row or column locator: `int | slice` as accepted by
`setDataFrameValue`. -/
inductive RC where
  | idx (i : Nat)
  | sl (start stop : Nat)
deriving DecidableEq

/-- `_get_limit` (_table.py lines 178-185): the largest index addressed
by an `int` or `slice` locator. -/
def getLimit : RC → Nat
  | RC.idx i => i
  | RC.sl _ stop => stop - 1

/-- The indices a locator addresses. -/
def RC.targets : RC → List Nat
  | RC.idx i => [i]
  | RC.sl start stop => (List.range (stop - start)).map (start + ·)

/-- A value written into a cell: either a Python `str` or some other
object (opaque payload). -/
inductive CellValue where
  | str (s : String)
  | other (payload : Nat)
deriving DecidableEq

/-- Stored form of a written value (string dtype grid). -/
def toCell : CellValue → Cell
  | CellValue.str s => some s
  | CellValue.other n => some (natToDec n)

/-- Write a value at every (row, column) pair addressed by the two
locators. -/
def writeCells (d : RawDF) (rs cs : List Nat) (v : Cell) : RawDF :=
  RawDF.mk (d.cells.mapIdx fun ri row =>
    if ri ∈ rs then cs.foldl (fun row2 ci => row2.set ci v) row else row)

/-- `getDataFrame` (_table.py lines 66-73): return the cached coerced
DataFrame if present, otherwise coerce the raw grid, cache the result and
return it.  Returns the frame together with the updated state. -/
def getDataFrame (coerce : RawDF → RawDF) (s : SpreadSheet) :
    RawDF × SpreadSheet :=
  match s.dataCache with
  | some out => (out, s)
  | none => (coerce s.dataRaw, { s with dataCache := some (coerce s.dataRaw) })

/-- `setDataFrame` (_table.py lines 75-81): replace the raw grid (cast to
string dtype, the identity on this all-string embedding), clear the
cache, hand the frame to the Qt model and reset the filter. -/
def setDataFrame (s : SpreadSheet) (data : RawDF) : SpreadSheet :=
  { s with dataRaw := data, dataCache := none, filterSlice := none }

/-- Modelled from the spec: the base-class filter setter
(`QTableLayerBase.setFilter`) is not under `src/`; it stores the filter
and refreshes the view.  It does not touch the coercion cache. -/
def setFilter (s : SpreadSheet) (f : Option Nat) : SpreadSheet :=
  { s with filterSlice := f }

/-- Modelled from the spec: the base-class cell writer
(`QTableLayerBase.setDataFrameValue`) is not under `src/`; it writes the
edited value into the data grid at the addressed cells (type-aware
coercion is the identity for a spreadsheet, `convertValue` at _table.py
lines 86-88).  It does not touch the coercion cache. -/
def superSetDataFrameValue (s : SpreadSheet) (r c : RC) (value : CellValue) :
    SpreadSheet :=
  { s with dataRaw := writeCells s.dataRaw r.targets c.targets (toCell value) }

/-- Modelled from the spec: the base-class vertical-header writer is not
under `src/`; it records the header text at the index.  It does not touch
the coercion cache. -/
def superSetVerticalHeaderValue (s : SpreadSheet) (index : Nat) (value : String) :
    SpreadSheet :=
  { s with vHeaders := (index, value) :: s.vHeaders }

/-- Modelled from the spec: the base-class horizontal-header writer is
not under `src/`; it records the header text at the index.  It does not
touch the coercion cache. -/
def superSetHorizontalHeaderValue (s : SpreadSheet) (index : Nat) (value : String) :
    SpreadSheet :=
  { s with hHeaders := (index, value) :: s.hHeaders }

/-- `expandRows` (_table.py lines 114-130): append `nExpand` rows of NaN;
an empty (size-0) grid is replaced by a fresh `(nExpand, 1)` grid. -/
def expandRows (s : SpreadSheet) (nExpand : Nat) : SpreadSheet :=
  if s.dataRaw.size = 0 then
    { s with dataRaw := RawDF.mk (List.replicate nExpand [(none : Cell)]) }
  else
    { s with dataRaw := RawDF.mk (s.dataRaw.cells ++
        List.replicate nExpand (List.replicate s.dataRaw.ncols (none : Cell))) }

/-- `expandColumns` (_table.py lines 132-148): append `nExpand` NaN
columns to every row; an empty (size-0) grid is replaced by a fresh
`(1, nExpand)` grid. -/
def expandColumns (s : SpreadSheet) (nExpand : Nat) : SpreadSheet :=
  if s.dataRaw.size = 0 then
    { s with dataRaw := RawDF.mk [List.replicate nExpand (none : Cell)] }
  else
    { s with dataRaw := RawDF.mk (s.dataRaw.cells.map
        (fun row => row ++ List.replicate nExpand (none : Cell))) }

/-- `QSpreadSheet.setDataFrameValue` (_table.py lines 93-112): an empty
string is ignored outright; otherwise the grid is expanded as needed to
cover the addressed cells (the Qt model shape padded by 10), the coercion
cache is cleared, the base-class writer stores the value, and the filter
is re-applied. -/
def setDataFrameValue (s : SpreadSheet) (r c : RC) (value : CellValue) :
    SpreadSheet :=
  if value = CellValue.str "" then s
  else
    let nr := s.dataRaw.nrows
    let nc := s.dataRaw.ncols
    let rmax := getLimit r
    let cmax := getLimit c
    let s1 :=
      if nr ≤ rmax ∨ nc ≤ cmax then
        let sA := if nr ≤ rmax then expandRows s (rmax - nr + 1) else s
        let sB := if sA.dataRaw.ncols ≤ cmax then expandColumns sA (cmax - nc + 1)
          else sA
        { sB with modelRows := sB.dataRaw.nrows + 10,
                  modelCols := sB.dataRaw.ncols + 10 }
      else s
    let s2 := { s1 with dataCache := none }
    let s3 := superSetDataFrameValue s2 r c value
    setFilter s3 s3.filterSlice

/-- `QSpreadSheet.setVerticalHeaderValue` (_table.py lines 150-162):
expand rows if the index is past the end, clear the coercion cache,
re-apply the filter, pad the Qt model shape by 10 and delegate to the
base-class header writer. -/
def setVerticalHeaderValue (s : SpreadSheet) (index : Nat) (value : String) :
    SpreadSheet :=
  let s1 :=
    if s.dataRaw.nrows ≤ index then
      let sE := expandRows s (index - s.dataRaw.nrows + 1)
      setFilter sE sE.filterSlice
    else s
  let s2 := { s1 with dataCache := none }
  let s3 := setFilter s2 s2.filterSlice
  let s4 := { s3 with modelRows := s1.dataRaw.nrows + 10,
                      modelCols := s1.dataRaw.ncols + 10 }
  superSetVerticalHeaderValue s4 index value

/-- `QSpreadSheet.setHorizontalHeaderValue` (_table.py lines 164-176):
the column-wise counterpart of the vertical header setter. -/
def setHorizontalHeaderValue (s : SpreadSheet) (index : Nat) (value : String) :
    SpreadSheet :=
  let s1 :=
    if s.dataRaw.ncols ≤ index then
      let sE := expandColumns s (index - s.dataRaw.ncols + 1)
      setFilter sE sE.filterSlice
    else s
  let s2 := { s1 with dataCache := none }
  let s3 := setFilter s2 s2.filterSlice
  let s4 := { s3 with modelRows := s1.dataRaw.nrows + 10,
                      modelCols := s1.dataRaw.ncols + 10 }
  superSetHorizontalHeaderValue s4 index value

/-! ### Spreadsheet claim theorems -/

/-- C9: writing the empty string into a spreadsheet cell is a complete
no-op — the state (grid, shape, cache, filter, Qt model shape, headers)
is returned unchanged, for every target position including positions
beyond the current shape: the early return precedes the expansion
logic. -/
theorem C9_empty_string_write_noop :
    ∀ (s : SpreadSheet) (r c : RC),
      setDataFrameValue s r c (CellValue.str "") = s := by
  intro s r c
  simp [setDataFrameValue]

theorem setDataFrameValue_cache_none {s : SpreadSheet} {r c : RC}
    {value : CellValue} (h : value ≠ CellValue.str "") :
    (setDataFrameValue s r c value).dataCache = none := by
  unfold setDataFrameValue
  rw [if_neg h]
  simp [setFilter, superSetDataFrameValue]

theorem setVerticalHeaderValue_cache_none (s : SpreadSheet) (index : Nat)
    (value : String) :
    (setVerticalHeaderValue s index value).dataCache = none := by
  simp [setVerticalHeaderValue, setFilter, superSetVerticalHeaderValue]

theorem setHorizontalHeaderValue_cache_none (s : SpreadSheet) (index : Nat)
    (value : String) :
    (setHorizontalHeaderValue s index value).dataCache = none := by
  simp [setHorizontalHeaderValue, setFilter, superSetHorizontalHeaderValue]

theorem getDataFrame_of_cache_none {coerce : RawDF → RawDF} {s : SpreadSheet}
    (h : s.dataCache = none) :
    getDataFrame coerce s =
      (coerce s.dataRaw, { s with dataCache := some (coerce s.dataRaw) }) := by
  unfold getDataFrame
  rw [h]

/-- C10: every mutating operation — `setDataFrame`, a non-empty
`setDataFrameValue`, and both header setters — resets the coercion cache
to `None`, so the frame `getDataFrame` returns right after a mutation is
the coercion of the freshly mutated raw grid, never one computed before
the mutation; and a second `getDataFrame` with no intervening mutation
returns the very frame cached by the first call with the state unchanged
(no recomputation).  Stated for every coercion function. -/
theorem C10_cache_invalidation_and_reuse :
    ∀ (coerce : RawDF → RawDF) (s : SpreadSheet),
      (∀ d, (getDataFrame coerce (setDataFrame s d)).1
          = coerce (setDataFrame s d).dataRaw) ∧
      (∀ (r c : RC) (value : CellValue), value ≠ CellValue.str "" →
        (getDataFrame coerce (setDataFrameValue s r c value)).1
          = coerce (setDataFrameValue s r c value).dataRaw) ∧
      (∀ (i : Nat) (value : String),
        (getDataFrame coerce (setVerticalHeaderValue s i value)).1
          = coerce (setVerticalHeaderValue s i value).dataRaw) ∧
      (∀ (i : Nat) (value : String),
        (getDataFrame coerce (setHorizontalHeaderValue s i value)).1
          = coerce (setHorizontalHeaderValue s i value).dataRaw) ∧
      getDataFrame coerce (getDataFrame coerce s).2
          = ((getDataFrame coerce s).1, (getDataFrame coerce s).2) := by
  intro coerce s
  refine ⟨?_, ?_, ?_, ?_, ?_⟩
  · intro d
    rw [getDataFrame_of_cache_none rfl]
  · intro r c value h
    rw [getDataFrame_of_cache_none (setDataFrameValue_cache_none h)]
  · intro i value
    rw [getDataFrame_of_cache_none (setVerticalHeaderValue_cache_none s i value)]
  · intro i value
    rw [getDataFrame_of_cache_none (setHorizontalHeaderValue_cache_none s i value)]
  · match hc : s.dataCache with
    | some out =>
      simp [getDataFrame, hc]
    | none =>
      simp [getDataFrame, hc]

/-- C10 witness: a non-empty write into an empty sheet, checked with the
identity coercion. -/
theorem C10_cache_invalidation_and_reuse_witness :
    (getDataFrame id (setDataFrameValue
        (SpreadSheet.mk (RawDF.mk []) none 0 0 none [] [])
        (RC.idx 0) (RC.idx 0) (CellValue.str "x"))).1
      = id (setDataFrameValue
        (SpreadSheet.mk (RawDF.mk []) none 0 0 none [] [])
        (RC.idx 0) (RC.idx 0) (CellValue.str "x")).dataRaw :=
  (C10_cache_invalidation_and_reuse id
      (SpreadSheet.mk (RawDF.mk []) none 0 0 none [] [])).2.1
    (RC.idx 0) (RC.idx 0) (CellValue.str "x") (by decide)

end Tabulous
